import Mathlib

/-!
Verification of the Avatar Interaction & Session Orchestration Core of the
whale-paper-pal desktop companion: the avatar finite state machine
(`src/state/StateMachine.ts`), the FIFO notification queue
(`useBubbleNotifier` / `NotificationQueue`), and the chat-session lifecycle
(`src/components/Chat/useChatInterface.ts`, `types.ts`, `quickCommands.ts`).

The TypeScript code is shallowly embedded: classes become structures with
explicit state passing, timers become a boolean "armed" flag, registered
callbacks become a list of identifiers, and callback invocation becomes an
explicit list of emitted notification events.  Timestamps (`Date.now()`)
become an explicit clock argument.
-/

namespace PaperPal

/-! ## Avatar state machine (src/state/StateMachine.ts) -/

/-- `AvatarState` from StateMachine.ts: 'idle' | 'alert' | 'active'. -/
inductive AvatarState
  | idle
  | alert
  | active
deriving DecidableEq, Repr

/-- `TransitionTrigger` from StateMachine.ts: 'click' | 'newPaper' | 'timeout' | 'dismiss'. -/
inductive TransitionTrigger
  | click
  | newPaper
  | timeout
  | dismiss
deriving DecidableEq, Repr

/-- The static transition table `VALID_TRANSITIONS` of StateMachine.ts.
A missing entry of the TypeScript record is `none`. -/
def VALID_TRANSITIONS : AvatarState → TransitionTrigger → Option AvatarState
  | .idle, .newPaper => some .alert
  | .idle, .click => some .active
  | .alert, .click => some .active
  | .alert, .timeout => some .idle
  | .alert, .dismiss => some .idle
  | .active, .timeout => some .idle
  | .active, .dismiss => some .idle
  | _, _ => none

/-- State of a `StateMachine` instance: the current avatar state, the
registered state-change callbacks (as identifiers, in registration order;
the same function registered twice appears twice), and whether the idle
timer is armed (`_idleTimer !== null`). -/
structure StateMachine where
  currentState : AvatarState
  callbacks : List Nat
  idleTimerRunning : Bool
deriving DecidableEq, Repr

/-- A state-change notification delivered to one callback:
(callback id, new state, previous state). -/
structure StateChangeEvent where
  callbackId : Nat
  newState : AvatarState
  previousState : AvatarState
deriving DecidableEq, Repr

/-- `StateMachine.transition(trigger)` of StateMachine.ts.  Looks the pair
(currentState, trigger) up in `VALID_TRANSITIONS`; on a hit it sets the
state, clears the idle timer, re-arms it exactly when the target is
`active`, and synchronously notifies every callback in registration order;
on a miss it returns `false` and changes nothing.  The result is
(returned boolean, machine after the call, emitted notifications). -/
def StateMachine.transition (m : StateMachine) (trigger : TransitionTrigger) :
    Bool × StateMachine × List StateChangeEvent :=
  match VALID_TRANSITIONS m.currentState trigger with
  | none => (false, m, [])
  | some targetState =>
    let previousState := m.currentState
    let m' : StateMachine :=
      { m with
        currentState := targetState
        idleTimerRunning := targetState = AvatarState.active }
    (true, m', m'.callbacks.map fun cb =>
      { callbackId := cb, newState := targetState, previousState := previousState })

/-- The closure returned by `onStateChange`: it runs
`indexOf(callback)` followed by `splice(index, 1)`, i.e. removes the first
occurrence of the callback from the list and is a no-op when the callback
is absent. -/
def removeFirstCallback : List Nat → Nat → List Nat
  | [], _ => []
  | x :: xs, c => if x = c then xs else x :: removeFirstCallback xs c

/-- `StateMachine.onStateChange(callback)`: appends the callback to the
list (`push`).  The unsubscribe handle it returns behaves as
`removeFirstCallback · callback`. -/
def StateMachine.onStateChange (m : StateMachine) (cb : Nat) : StateMachine :=
  { m with callbacks := m.callbacks ++ [cb] }

/-! ## Notification queue (NotificationQueue class of useBubbleNotifier) -/

/-- Source kind of a bubble: 'arxiv' | 'huggingface'. -/
inductive BubbleSource
  | arxiv
  | huggingface
deriving DecidableEq, Repr

/-- `BubbleMessage` interface of the bubble-notifier types. -/
structure BubbleMessage where
  id : String
  content : String
  paperId : String
  source : BubbleSource
  title : String
  score : Int
  timestamp : Nat
deriving DecidableEq, Repr

/-- State of the `NotificationQueue` class: the pending `_queue` and the
displayed `_current`. -/
structure NotificationQueue where
  queue : List BubbleMessage
  current : Option BubbleMessage
deriving DecidableEq, Repr

/-- The queue as constructed: both fields empty. -/
def NotificationQueue.empty : NotificationQueue :=
  { queue := [], current := none }

/-- `NotificationQueue.enqueue(message)`: if `_current` is null the message
becomes current, otherwise it is pushed at the back of `_queue`. -/
def NotificationQueue.enqueue (q : NotificationQueue) (m : BubbleMessage) :
    NotificationQueue :=
  match q.current with
  | none => { q with current := some m }
  | some _ => { q with queue := q.queue ++ [m] }

/-- `NotificationQueue.enqueueAll(messages)`: a loop calling `enqueue` for
each message in input order. -/
def NotificationQueue.enqueueAll (q : NotificationQueue) (ms : List BubbleMessage) :
    NotificationQueue :=
  ms.foldl NotificationQueue.enqueue q

/-- `NotificationQueue.dismiss()`: if `_queue` is non-empty its head is
shifted into `_current`, otherwise `_current` becomes null; the new
current is returned alongside the new state. -/
def NotificationQueue.dismiss (q : NotificationQueue) :
    NotificationQueue × Option BubbleMessage :=
  match q.queue with
  | m :: rest => ({ queue := rest, current := some m }, some m)
  | [] => ({ q with current := none }, none)

/-- `NotificationQueue.clear()`: empties both fields. -/
def NotificationQueue.clear (_q : NotificationQueue) : NotificationQueue :=
  { queue := [], current := none }

/-- Spec-side description of `enqueueAll`: literally one `enqueue` call per
message in input order, written as explicit recursion to compare with the
implementation. -/
def enqueueEach (q : NotificationQueue) : List BubbleMessage → NotificationQueue
  | [] => q
  | m :: ms => enqueueEach (q.enqueue m) ms

/-- One of the four mutating operations of `NotificationQueue`. -/
inductive QueueOp
  | enqueue (m : BubbleMessage)
  | enqueueAll (ms : List BubbleMessage)
  | dismiss
  | clear

/-- Apply one queue operation to a queue state. -/
def applyQueueOp (q : NotificationQueue) : QueueOp → NotificationQueue
  | .enqueue m => q.enqueue m
  | .enqueueAll ms => q.enqueueAll ms
  | .dismiss => q.dismiss.1
  | .clear => q.clear

/-- Run a sequence of queue operations from the empty queue. -/
def runQueueOps (ops : List QueueOp) : NotificationQueue :=
  ops.foldl applyQueueOp NotificationQueue.empty

/-- The queue invariant stated by the spec: a non-empty pending sequence
implies a non-null current. -/
def QueueInv (q : NotificationQueue) : Prop :=
  q.queue ≠ [] → q.current ≠ none

instance (q : NotificationQueue) : Decidable (QueueInv q) := by
  unfold QueueInv; infer_instance

/-! ### FIFO observation traces -/

/-- An enqueue or dismiss call, for observing the display order. -/
inductive EDOp
  | enq (m : BubbleMessage)
  | dis

/-- One step of an enqueue/dismiss interleaving, recording every message
the moment it becomes `current` (that is the moment it is displayed). -/
def edStep : NotificationQueue × List BubbleMessage → EDOp →
    NotificationQueue × List BubbleMessage
  | (q, obs), .enq m =>
    match q.current with
    | none => (q.enqueue m, obs ++ [m])
    | some _ => (q.enqueue m, obs)
  | (q, obs), .dis =>
    match q.dismiss with
    | (q', some m) => (q', obs ++ [m])
    | (q', none) => (q', obs)

/-- Run an enqueue/dismiss interleaving from the empty queue, returning the
final queue state and the display trace. -/
def runED (ops : List EDOp) : NotificationQueue × List BubbleMessage :=
  ops.foldl edStep (NotificationQueue.empty, [])

/-- The messages enqueued by an interleaving, in input order. -/
def enqueuedOf (ops : List EDOp) : List BubbleMessage :=
  ops.filterMap fun op =>
    match op with
    | .enq m => some m
    | .dis => none

/-! ## Chat session (src/components/Chat) -/

/-- JavaScript whitespace for `String.prototype.trim`: WhiteSpace and
LineTerminator code points. -/
def isJsWhitespace (c : Char) : Bool :=
  (c.toNat == 0x09) || (c.toNat == 0x0A) || (c.toNat == 0x0B) || (c.toNat == 0x0C) ||
  (c.toNat == 0x0D) || (c.toNat == 0x20) || (c.toNat == 0xA0) || (c.toNat == 0x1680) ||
  (decide (0x2000 ≤ c.toNat) && decide (c.toNat ≤ 0x200A)) ||
  (c.toNat == 0x2028) || (c.toNat == 0x2029) || (c.toNat == 0x202F) ||
  (c.toNat == 0x205F) || (c.toNat == 0x3000) || (c.toNat == 0xFEFF)

/-- JavaScript `String.prototype.trim`: strip leading and trailing
whitespace. -/
def jsTrim (s : String) : String :=
  ⟨((s.data.dropWhile isJsWhitespace).reverse.dropWhile isJsWhitespace).reverse⟩

/-- Message role: 'user' | 'assistant'. -/
inductive ChatRole
  | user
  | assistant
deriving DecidableEq, Repr

/-- `ChatMessage` of Chat/types.ts; `timestamp: Date` becomes a `Nat`
clock value. -/
structure ChatMessage where
  id : String
  role : ChatRole
  content : String
  timestamp : Nat
deriving DecidableEq, Repr

/-- `PDFProcessingStatus` of Chat/types.ts; the float `progress` becomes a
rational (only the exact literal 0.0 matters here). -/
structure PDFProcessingStatus where
  isDownloading : Bool
  isProcessing : Bool
  isComplete : Bool
  progress : Rat
  errorMessage : Option String
  totalChunks : Nat
  processedChunks : Nat
deriving DecidableEq, Repr

/-- `ChatContext` of Chat/types.ts.  The optional TypeScript fields
`pdfUrl?`, `isPdfProcessed?` and `processingStatus?` become `Option`s. -/
structure ChatContext where
  paperId : String
  paperTitle : String
  abstract : String
  pdfUrl : Option String
  history : List ChatMessage
  isPdfProcessed : Option Bool
  processingStatus : Option PDFProcessingStatus
deriving DecidableEq, Repr

/-- `createChatMessage(role, content)` of Chat/types.ts.  `Date.now()` and
the random id suffix become the explicit arguments `now` and `rand`. -/
def createChatMessage (role : ChatRole) (content : String) (now : Nat) (rand : String) :
    ChatMessage :=
  { id := "msg-" ++ toString now ++ "-" ++ rand
    role := role
    content := content
    timestamp := now }

/-- `createChatContext(paperId, paperTitle, abstract, pdfUrl?)` of
Chat/types.ts: empty history, `isPdfProcessed: false`, and the default
not-yet-processed status. -/
def createChatContext (paperId paperTitle abstract : String) (pdfUrl : Option String) :
    ChatContext :=
  { paperId := paperId
    paperTitle := paperTitle
    abstract := abstract
    pdfUrl := pdfUrl
    history := []
    isPdfProcessed := some false
    processingStatus := some
      { isDownloading := false
        isProcessing := false
        isComplete := false
        progress := 0
        errorMessage := none
        totalChunks := 0
        processedChunks := 0 } }

/-- `addMessageToHistory(context, message)` of Chat/types.ts: a fresh
context with the message appended to `history`, all other fields spread
from the input. -/
def addMessageToHistory (context : ChatContext) (message : ChatMessage) : ChatContext :=
  { context with history := context.history ++ [message] }

/-- `clearChatContext()` of Chat/types.ts: always `null`. -/
def clearChatContext : Option ChatContext :=
  none

/-- `QUICK_COMMANDS` (and the commands of `QUICK_COMMAND_DEFINITIONS`), in
definition order. -/
def QUICK_COMMANDS : List String :=
  ["看公式", "看代码链接"]

/-- `matchQuickCommand(input)` of quickCommands.ts: trim the input, then
scan the definitions in order for one whose command equals the trimmed
input exactly. -/
def matchQuickCommand (input : String) : Option String :=
  QUICK_COMMANDS.find? fun c => c == jsTrim input

/-- State of the `useChatInterface` hook relevant to the session
lifecycle: the current context (null when closed) and the open flag. -/
structure ChatState where
  context : Option ChatContext
  isOpen : Bool
deriving DecidableEq, Repr

/-- `open(paperId, paperTitle, abstract, pdfUrl?)` of useChatInterface.ts
(`open` is a Lean keyword, hence `openChat`): installs a fresh context and
sets the open flag.  The fire-and-forget PDF kickoff does not touch this
state. -/
def openChat (_s : ChatState) (paperId paperTitle abstract : String)
    (pdfUrl : Option String) : ChatState :=
  { context := some (createChatContext paperId paperTitle abstract pdfUrl)
    isOpen := true }

/-- `close()` of useChatInterface.ts: closed flag and
`setContext(clearChatContext())`. -/
def closeChat (_s : ChatState) : ChatState :=
  { context := clearChatContext, isOpen := false }

/-- Fallback reply when the `onLLMRequest` collaborator throws
('请求失败，请稍后重试。'). -/
def LLM_FAILURE_FALLBACK : String :=
  "请求失败，请稍后重试。"

/-- Reply when no `onLLMRequest` collaborator is wired
('聊天功能需要连接后端服务。'). -/
def LLM_UNAVAILABLE_REPLY : String :=
  "聊天功能需要连接后端服务。"

/-- Fallback reply when the `onQuickCommandRequest` collaborator throws. -/
def QUICK_FAILURE_FALLBACK : String :=
  "快捷指令执行失败，请稍后重试。"

/-- Reply when no `onQuickCommandRequest` collaborator is wired. -/
def QUICK_UNAVAILABLE_REPLY : String :=
  "快捷指令功能需要连接后端服务。"

/-- Outcome of the awaited answer collaborator: absent (`none`), a reply
(`some (.ok r)`), or a throw (`some (.error ())`). -/
abbrev LLMOutcome := Option (Except Unit String)

/-- The assistant reply content chosen by `sendMessage` for a collaborator
outcome. -/
def llmReplyContent : LLMOutcome → String
  | some (.ok r) => r
  | some (.error _) => LLM_FAILURE_FALLBACK
  | none => LLM_UNAVAILABLE_REPLY

/-- The assistant reply content chosen by `handleQuickCommand`. -/
def quickReplyContent : LLMOutcome → String
  | some (.ok r) => r
  | some (.error _) => QUICK_FAILURE_FALLBACK
  | none => QUICK_UNAVAILABLE_REPLY

/-- `sendMessage(content)` of useChatInterface.ts.  Returns null and
leaves the state alone when the context is null or the content trims to
empty; otherwise appends the user message, obtains the reply (awaited
collaborator outcome `llm`), appends the assistant message, and returns
it.  `now₁`/`rand₁` and `now₂`/`rand₂` are the clock and id-suffix values
of the two `createChatMessage` calls. -/
def sendMessage (s : ChatState) (content : String) (llm : LLMOutcome)
    (now₁ now₂ : Nat) (rand₁ rand₂ : String) : Option ChatMessage × ChatState :=
  match s.context with
  | none => (none, s)
  | some context =>
    if jsTrim content = "" then (none, s)
    else
      let userMessage := createChatMessage .user content now₁ rand₁
      let contextWithUserMsg := addMessageToHistory context userMessage
      let assistantMessage :=
        createChatMessage .assistant (llmReplyContent llm) now₂ rand₂
      let finalContext := addMessageToHistory contextWithUserMsg assistantMessage
      (some assistantMessage, { s with context := some finalContext })

/-- `handleQuickCommand(command)` of useChatInterface.ts: like
`sendMessage` but with no emptiness check on the command. -/
def handleQuickCommand (s : ChatState) (command : String) (llm : LLMOutcome)
    (now₁ now₂ : Nat) (rand₁ rand₂ : String) : Option ChatMessage × ChatState :=
  match s.context with
  | none => (none, s)
  | some context =>
    let userMessage := createChatMessage .user command now₁ rand₁
    let contextWithUserMsg := addMessageToHistory context userMessage
    let assistantMessage :=
      createChatMessage .assistant (quickReplyContent llm) now₂ rand₂
    let finalContext := addMessageToHistory contextWithUserMsg assistantMessage
    (some assistantMessage, { s with context := some finalContext })

/-- `clearHistory()` of useChatInterface.ts: empties the history, keeping
the rest of the context. -/
def clearHistory (s : ChatState) : ChatState :=
  match s.context with
  | none => s
  | some context => { s with context := some { context with history := [] } }

/-- One operation of a chat-session run.  Message-creating operations
carry the clock values `now₁ now₂` of their two `createChatMessage`
calls. -/
inductive ChatOp
  | openOp (paperId paperTitle abstract : String) (pdfUrl : Option String)
  | send (content : String) (llm : LLMOutcome) (now₁ now₂ : Nat) (rand₁ rand₂ : String)
  | quick (command : String) (llm : LLMOutcome) (now₁ now₂ : Nat) (rand₁ rand₂ : String)
  | clearHistoryOp

/-- Apply one chat operation to the hook state. -/
def applyChatOp (s : ChatState) : ChatOp → ChatState
  | .openOp pid title abstr url => openChat s pid title abstr url
  | .send content llm n₁ n₂ r₁ r₂ => (sendMessage s content llm n₁ n₂ r₁ r₂).2
  | .quick cmd llm n₁ n₂ r₁ r₂ => (handleQuickCommand s cmd llm n₁ n₂ r₁ r₂).2
  | .clearHistoryOp => clearHistory s

/-- The clock values an operation reads, in reading order. -/
def opTimes : ChatOp → List Nat
  | .send _ _ n₁ n₂ _ _ => [n₁, n₂]
  | .quick _ _ n₁ n₂ _ _ => [n₁, n₂]
  | _ => []

/-- Run a sequence of chat operations from the initial (closed) hook
state. -/
def runChat (ops : List ChatOp) : ChatState :=
  ops.foldl applyChatOp { context := none, isOpen := false }

/-- An operation is not an `open` with an empty abstract. -/
def opAbstractOk : ChatOp → Prop
  | ChatOp.openOp _ _ abstr _ => abstr ≠ ""
  | _ => True

instance : DecidablePred opAbstractOk := fun op => by
  cases op <;> simp only [opAbstractOk] <;> infer_instance

/-- Every `open` in the run is called with a non-empty abstract. -/
def opensNonEmpty (ops : List ChatOp) : Prop :=
  ∀ op ∈ ops, opAbstractOk op

instance (ops : List ChatOp) : Decidable (opensNonEmpty ops) :=
  List.decidableBAll _ ops

/-- Session invariant carried through a run: whenever a context is
present, its abstract is non-empty, its history timestamps are pairwise
non-decreasing, and every history timestamp is at most `bound`. -/
def ChatInv (s : ChatState) (bound : Nat) : Prop :=
  ∀ ctx, s.context = some ctx →
    ctx.abstract ≠ "" ∧
    (ctx.history.map ChatMessage.timestamp).Pairwise (· ≤ ·) ∧
    ∀ m ∈ ctx.history, m.timestamp ≤ bound

/-- The (role, content) view of a message: what the claim about history
growth talks about, independent of ids and timestamps. -/
def messageView (m : ChatMessage) : ChatRole × String :=
  (m.role, m.content)

/-- The (role, content) view of a history. -/
def historyView (c : ChatContext) : List (ChatRole × String) :=
  c.history.map messageView

/-! ## Concrete fixtures used by witnesses and counterexamples -/

/-- A concrete bubble message. -/
def bubbleA : BubbleMessage :=
  { id := "a", content := "ca", paperId := "pa", source := BubbleSource.arxiv,
    title := "ta", score := 9, timestamp := 0 }

/-- Another concrete bubble message. -/
def bubbleB : BubbleMessage :=
  { id := "b", content := "cb", paperId := "pb", source := BubbleSource.huggingface,
    title := "tb", score := 5, timestamp := 1 }

/-- A concrete enqueue/dismiss interleaving that drains the queue. -/
def edWitnessOps : List EDOp :=
  [EDOp.enq bubbleA, EDOp.enq bubbleB, EDOp.dis, EDOp.dis]

/-- A concrete open chat context. -/
def ctx₀ : ChatContext :=
  createChatContext ("p1") ("Title") ("An abstract.") none

/-- A chat hook state with an open session on `ctx₀`. -/
def chatStateOpen : ChatState :=
  { context := some ctx₀, isOpen := true }

/-- A concrete chat run: open with a non-empty abstract, then send one
message. -/
def chatWitnessOps : List ChatOp :=
  [ChatOp.openOp ("p1") ("Title") ("An abstract.") none,
   ChatOp.send ("hi") (some (Except.ok ("a reply"))) 1 2 ("r1") ("r2")]

/-- A default context used only to read a computed `Option ChatContext`. -/
def fallbackCtx : ChatContext :=
  createChatContext ("x") ("x") ("x") none

/-! ## Helper lemmas -/

theorem edStep_spec (p : NotificationQueue × List BubbleMessage) (op : EDOp)
    (h : p.1.current = none → p.1.queue = []) :
    ((edStep p op).2 ++ (edStep p op).1.queue =
      p.2 ++ p.1.queue ++ enqueuedOf [op]) ∧
    ((edStep p op).1.current = none → (edStep p op).1.queue = []) := by
  obtain ⟨q, obs⟩ := p
  cases op with
  | enq m =>
    cases hc : q.current with
    | none =>
      have hq : q.queue = [] := h hc
      simp [edStep, hc, NotificationQueue.enqueue, hq, enqueuedOf]
    | some c =>
      simp [edStep, hc, NotificationQueue.enqueue, enqueuedOf]
  | dis =>
    cases hq : q.queue with
    | nil =>
      simp [edStep, NotificationQueue.dismiss, hq, enqueuedOf]
    | cons m rest =>
      simp [edStep, NotificationQueue.dismiss, hq, enqueuedOf]

theorem runED_loop (ops : List EDOp) :
    ∀ p : NotificationQueue × List BubbleMessage,
      (p.1.current = none → p.1.queue = []) →
      ((ops.foldl edStep p).2 ++ (ops.foldl edStep p).1.queue =
        p.2 ++ p.1.queue ++ enqueuedOf ops) ∧
      ((ops.foldl edStep p).1.current = none → (ops.foldl edStep p).1.queue = []) := by
  induction ops with
  | nil => intro p h; simpa [enqueuedOf] using h
  | cons op rest ih =>
    intro p h
    obtain ⟨h1, h2⟩ := edStep_spec p op h
    obtain ⟨ih1, ih2⟩ := ih (edStep p op) h2
    refine ⟨?_, ih2⟩
    rw [List.foldl_cons, ih1, h1]
    cases op <;> simp [enqueuedOf, List.filterMap_cons]

theorem enqueue_inv (q : NotificationQueue) (m : BubbleMessage) (_h : QueueInv q) :
    QueueInv (q.enqueue m) := by
  cases hc : q.current with
  | none =>
    intro _ hcur
    simp [NotificationQueue.enqueue, hc] at hcur
  | some c =>
    intro _ hcur
    simp [NotificationQueue.enqueue, hc] at hcur

theorem enqueueAll_inv (ms : List BubbleMessage) :
    ∀ q : NotificationQueue, QueueInv q → QueueInv (q.enqueueAll ms) := by
  induction ms with
  | nil => intro q h; exact h
  | cons m rest ih =>
    intro q h
    exact ih (q.enqueue m) (enqueue_inv q m h)

theorem applyQueueOp_inv (q : NotificationQueue) (op : QueueOp) (h : QueueInv q) :
    QueueInv (applyQueueOp q op) := by
  cases op with
  | enqueue m => exact enqueue_inv q m h
  | enqueueAll ms => exact enqueueAll_inv ms q h
  | dismiss =>
    cases hq : q.queue with
    | nil => intro hne _; simp [applyQueueOp, NotificationQueue.dismiss, hq] at hne
    | cons m rest =>
      intro _ hcur
      simp [applyQueueOp, NotificationQueue.dismiss, hq] at hcur
  | clear =>
    intro hne _
    simp [applyQueueOp, NotificationQueue.clear] at hne

theorem runQueueOps_inv (ops : List QueueOp) :
    ∀ q : NotificationQueue, QueueInv q → QueueInv (ops.foldl applyQueueOp q) := by
  induction ops with
  | nil => intro q h; exact h
  | cons op rest ih =>
    intro q h
    exact ih (applyQueueOp q op) (applyQueueOp_inv q op h)

theorem removeFirstCallback_of_not_mem (cbs : List Nat) (c : Nat) (h : c ∉ cbs) :
    removeFirstCallback cbs c = cbs := by
  induction cbs with
  | nil => rfl
  | cons x xs ih =>
    simp only [List.mem_cons, not_or] at h
    have hx : ¬ x = c := fun hxc => h.1 hxc.symm
    simp only [removeFirstCallback, if_neg hx, ih h.2]

theorem count_removeFirstCallback_ne (cbs : List Nat) (c d : Nat) (hdc : d ≠ c) :
    (removeFirstCallback cbs c).count d = cbs.count d := by
  induction cbs with
  | nil => rfl
  | cons x xs ih =>
    by_cases hx : x = c
    · subst hx
      have hr : removeFirstCallback (x :: xs) x = xs := by
        simp [removeFirstCallback]
      rw [hr, List.count_cons_of_ne hdc]
    · simp only [removeFirstCallback, if_neg hx]
      rw [List.count_cons, List.count_cons, ih]

theorem not_mem_removeFirstCallback_of_count_le_one (cbs : List Nat) (c : Nat)
    (h : cbs.count c ≤ 1) : c ∉ removeFirstCallback cbs c := by
  induction cbs with
  | nil => simp [removeFirstCallback]
  | cons x xs ih =>
    by_cases hx : x = c
    · subst hx
      simp only [removeFirstCallback, if_pos rfl]
      rw [List.count_cons_self] at h
      have : xs.count x = 0 := by omega
      exact List.count_eq_zero.mp this
    · have hcx : c ≠ x := fun h2 => hx h2.symm
      simp only [removeFirstCallback, if_neg hx, List.mem_cons, not_or]
      rw [List.count_cons_of_ne hcx] at h
      exact ⟨hcx, ih h⟩

theorem ChatInv_weaken {s : ChatState} {b B : Nat} (h : ChatInv s b) (hbB : b ≤ B) :
    ChatInv s B := by
  intro ctx hctx
  obtain ⟨h1, h2, h3⟩ := h ctx hctx
  exact ⟨h1, h2, fun m hm => le_trans (h3 m hm) hbB⟩

theorem ChatInv_appendTwo {ctx : ChatContext} {b n₁ n₂ : Nat}
    (h1 : ctx.abstract ≠ "")
    (h2 : (ctx.history.map ChatMessage.timestamp).Pairwise (· ≤ ·))
    (h3 : ∀ m ∈ ctx.history, m.timestamp ≤ b)
    (hbn : b ≤ n₁) (hnn : n₁ ≤ n₂) (u a : ChatMessage)
    (hu : u.timestamp = n₁) (ha : a.timestamp = n₂) :
    (addMessageToHistory (addMessageToHistory ctx u) a).abstract ≠ "" ∧
    ((addMessageToHistory (addMessageToHistory ctx u) a).history.map
      ChatMessage.timestamp).Pairwise (· ≤ ·) ∧
    ∀ m ∈ (addMessageToHistory (addMessageToHistory ctx u) a).history,
      m.timestamp ≤ n₂ := by
  refine ⟨h1, ?_, ?_⟩
  · simp only [addMessageToHistory, List.append_assoc, List.singleton_append,
      List.map_append, List.map_cons, List.map_nil]
    rw [List.pairwise_append]
    refine ⟨h2, ?_, ?_⟩
    · simp [hu, ha, hnn]
    · intro x hx y hy
      simp only [List.mem_cons, List.not_mem_nil, or_false] at hy
      obtain ⟨m, hm, rfl⟩ := List.mem_map.mp hx
      have hxb : m.timestamp ≤ b := h3 m hm
      rcases hy with rfl | rfl
      · exact le_trans hxb (hu ▸ hbn)
      · exact le_trans hxb (ha ▸ le_trans hbn hnn)
  · intro m hm
    simp only [addMessageToHistory, List.append_assoc, List.singleton_append,
      List.mem_append, List.mem_cons, List.not_mem_nil, or_false] at hm
    rcases hm with hm | rfl | rfl
    · exact le_trans (h3 m hm) (le_trans hbn hnn)
    · exact le_of_eq_of_le hu hnn
    · exact le_of_eq ha

theorem runChat_loop (ops : List ChatOp) :
    ∀ s b, ChatInv s b → opensNonEmpty ops →
      ((b :: ((ops.map opTimes).flatten)).Pairwise (· ≤ ·)) →
      ∃ bf, ChatInv (ops.foldl applyChatOp s) bf := by
  induction ops with
  | nil => intro s b hs _ _; exact ⟨b, hs⟩
  | cons op rest ih =>
    intro s b hs hopen hord
    have hopenRest : opensNonEmpty rest := fun o ho => hopen o (List.mem_cons_of_mem _ ho)
    have hopenHead := hopen op (List.mem_cons_self op rest)
    cases op with
    | openOp pid title abstr url =>
      have hord' : ((b :: (rest.map opTimes).flatten).Pairwise (· ≤ ·)) := by
        simpa [opTimes] using hord
      refine ih _ b ?_ hopenRest hord'
      intro ctx hctx
      simp only [applyChatOp, openChat, Option.some.injEq] at hctx
      subst hctx
      exact ⟨hopenHead, by simp [createChatContext], by simp [createChatContext]⟩
    | clearHistoryOp =>
      have hord' : ((b :: (rest.map opTimes).flatten).Pairwise (· ≤ ·)) := by
        simpa [opTimes] using hord
      refine ih _ b ?_ hopenRest hord'
      intro ctx hctx
      cases hsc : s.context with
      | none => simp [applyChatOp, clearHistory, hsc] at hctx
      | some c =>
        simp only [applyChatOp, clearHistory, hsc, Option.some.injEq] at hctx
        subst hctx
        obtain ⟨h1, _, _⟩ := hs c hsc
        exact ⟨h1, by simp, by simp⟩
    | send content llm n₁ n₂ r₁ r₂ =>
      simp only [List.map_cons, List.flatten_cons, opTimes] at hord
      have hbn₁ : b ≤ n₁ := (List.pairwise_cons.mp hord).1 n₁ (by simp)
      have hbn₂ : b ≤ n₂ := (List.pairwise_cons.mp hord).1 n₂ (by simp)
      have hrest0 : ((n₁ :: n₂ :: (rest.map opTimes).flatten).Pairwise (· ≤ ·)) :=
        (List.pairwise_cons.mp hord).2
      have hn₁n₂ : n₁ ≤ n₂ := (List.pairwise_cons.mp hrest0).1 n₂ (by simp)
      have hrest1 : ((n₂ :: (rest.map opTimes).flatten).Pairwise (· ≤ ·)) :=
        (List.pairwise_cons.mp hrest0).2
      refine ih _ n₂ ?_ hopenRest hrest1
      intro ctx hctx
      cases hsc : s.context with
      | none =>
        simp [applyChatOp, sendMessage, hsc] at hctx
      | some c =>
        simp only [applyChatOp, sendMessage, hsc] at hctx
        obtain ⟨h1, h2, h3⟩ := hs c hsc
        by_cases htrim : jsTrim content = ""
        · rw [if_pos htrim] at hctx
          simp only at hctx
          obtain ⟨g1, g2, g3⟩ := hs ctx hctx
          exact ⟨g1, g2, fun m hm => le_trans (g3 m hm) (le_trans hbn₁ hn₁n₂)⟩
        · rw [if_neg htrim] at hctx
          simp only [Option.some.injEq] at hctx
          subst hctx
          exact ChatInv_appendTwo h1 h2 h3 hbn₁ hn₁n₂ _ _ rfl rfl
    | quick cmd llm n₁ n₂ r₁ r₂ =>
      simp only [List.map_cons, List.flatten_cons, opTimes] at hord
      have hbn₁ : b ≤ n₁ := (List.pairwise_cons.mp hord).1 n₁ (by simp)
      have hrest0 : ((n₁ :: n₂ :: (rest.map opTimes).flatten).Pairwise (· ≤ ·)) :=
        (List.pairwise_cons.mp hord).2
      have hn₁n₂ : n₁ ≤ n₂ := (List.pairwise_cons.mp hrest0).1 n₂ (by simp)
      have hrest1 : ((n₂ :: (rest.map opTimes).flatten).Pairwise (· ≤ ·)) :=
        (List.pairwise_cons.mp hrest0).2
      refine ih _ n₂ ?_ hopenRest hrest1
      intro ctx hctx
      cases hsc : s.context with
      | none =>
        simp [applyChatOp, handleQuickCommand, hsc] at hctx
      | some c =>
        simp only [applyChatOp, handleQuickCommand, hsc, Option.some.injEq] at hctx
        obtain ⟨h1, h2, h3⟩ := hs c hsc
        subst hctx
        exact ChatInv_appendTwo h1 h2 h3 hbn₁ hn₁n₂ _ _ rfl rfl

/-! ## Claim theorems -/

/-- C1: for every current avatar state and every trigger, if the pair has
a target in the fixed transition table then `transition` returns `true`
and sets `currentState` to exactly that target; if the pair has no target,
`transition` returns `false`, the machine — state, callback list and idle
timer — is unchanged, and no state-change callback is invoked. -/
theorem transition_follows_table (m : StateMachine) (t : TransitionTrigger) :
    (match VALID_TRANSITIONS m.currentState t with
     | some target =>
       (m.transition t).1 = true ∧ (m.transition t).2.1.currentState = target
     | none =>
       (m.transition t).1 = false ∧ (m.transition t).2.1 = m ∧
       (m.transition t).2.2 = []) := by
  cases h : VALID_TRANSITIONS m.currentState t with
  | none => simp [StateMachine.transition, h]
  | some target => simp [StateMachine.transition, h]

/-- C2: over any interleaving of enqueues and dismisses started from the
empty queue, the sequence of messages observed as `current` followed by
the still-pending messages equals the enqueue input sequence in order; in
particular once the pending queue is drained the observed sequence equals
the input sequence exactly — FIFO with no skip, duplication or
reordering. -/
theorem notification_fifo (ops : List EDOp) :
    (runED ops).2 ++ (runED ops).1.queue = enqueuedOf ops ∧
    ((runED ops).1.queue = [] → (runED ops).2 = enqueuedOf ops) := by
  have h := runED_loop ops (NotificationQueue.empty, []) (fun _ => rfl)
  have h1 : (runED ops).2 ++ (runED ops).1.queue = enqueuedOf ops := by
    simpa [runED, NotificationQueue.empty] using h.1
  exact ⟨h1, fun hq => by rw [hq, List.append_nil] at h1; exact h1⟩

/-- Witness for C2 at a concrete drained interleaving. -/
theorem notification_fifo_witness :
    (runED edWitnessOps).1.queue = [] ∧
    (runED edWitnessOps).2 = enqueuedOf edWitnessOps :=
  ⟨rfl, (notification_fifo edWitnessOps).2 rfl⟩

/-- C3: `sendMessage` returns null and leaves the state unchanged when the
session is closed or the content trims to empty; otherwise the history
grows by exactly a user message with the given content followed by one
assistant message — the collaborator reply on success, the fixed fallback
string on collaborator failure — and that assistant message is returned.
The embedding is a total function, so no exception propagates. -/
theorem sendMessage_spec (s : ChatState) (content : String) (llm : LLMOutcome)
    (now₁ now₂ : Nat) (rand₁ rand₂ : String) :
    (s.context = none →
      sendMessage s content llm now₁ now₂ rand₁ rand₂ = (none, s)) ∧
    (jsTrim content = "" →
      sendMessage s content llm now₁ now₂ rand₁ rand₂ = (none, s)) ∧
    (∀ ctx, s.context = some ctx → jsTrim content ≠ "" →
      ((sendMessage s content llm now₁ now₂ rand₁ rand₂).2.context.map historyView =
        some (historyView ctx ++
          [(ChatRole.user, content), (ChatRole.assistant, llmReplyContent llm)])) ∧
      ((sendMessage s content llm now₁ now₂ rand₁ rand₂).1.map messageView =
        some (ChatRole.assistant, llmReplyContent llm))) ∧
    llmReplyContent (some (Except.error ())) = LLM_FAILURE_FALLBACK ∧
    (∀ r : String, llmReplyContent (some (Except.ok r)) = r) := by
  refine ⟨?_, ?_, ?_, rfl, fun r => rfl⟩
  · intro h
    simp [sendMessage, h]
  · intro h
    cases hc : s.context with
    | none => simp [sendMessage, hc]
    | some c => simp [sendMessage, hc, h]
  · intro ctx hctx htrim
    simp [sendMessage, hctx, htrim, historyView, messageView, addMessageToHistory,
      createChatMessage]

/-- Witness for C3: an open session with a failing collaborator. -/
theorem sendMessage_spec_witness :
    chatStateOpen.context = some ctx₀ ∧ jsTrim ("hi") ≠ "" ∧
    ((sendMessage chatStateOpen ("hi") (some (Except.error ())) 1 2 ("r1")
        ("r2")).2.context.map historyView =
      some (historyView ctx₀ ++
        [(ChatRole.user, ("hi" : String)),
         (ChatRole.assistant, llmReplyContent (some (Except.error ())))])) := by
  have h := sendMessage_spec chatStateOpen ("hi") (some (Except.error ())) 1 2
    ("r1") ("r2")
  exact ⟨rfl, by decide, (h.2.2.1 ctx₀ rfl (by decide)).1⟩

/-- C4: `open` always yields a context whose abstract equals the input
abstract, with empty history, `isPdfProcessed` false, and a default
not-yet-processed status (`isComplete` false, `progress` 0); `close`
always yields a null context — so re-opening starts from a fresh, empty
history. -/
theorem openChat_fresh (s : ChatState) (pid title abstr : String)
    (url : Option String) :
    ∃ ctx st, (openChat s pid title abstr url).context = some ctx ∧
      ctx.abstract = abstr ∧ ctx.history = [] ∧
      ctx.isPdfProcessed = some false ∧
      ctx.processingStatus = some st ∧ st.isComplete = false ∧
      st.progress = 0 ∧ (closeChat s).context = none :=
  ⟨_, _, rfl, rfl, rfl, rfl, rfl, rfl, rfl, rfl⟩

/-- C5 counterexample: `open` accepts the empty string as abstract, and
the resulting reachable open state has an empty abstract — refuting the
claimed unconditional non-emptiness invariant. -/
theorem chat_abstract_empty_cex :
    (runChat [ChatOp.openOp ("p") ("t") ("") none]).context.map
      ChatContext.abstract = some ("") :=
  rfl

/-- C5 amended: over any sequence of open/sendMessage/handleQuickCommand/
clearHistory operations in which every `open` receives a non-empty
abstract and the clock readings are non-decreasing, whenever the session
is open the context's abstract is non-empty and the history timestamps are
in non-decreasing order.  (The original claim fails for the empty-string
abstract, which `open` accepts without validation.) -/
theorem chat_session_invariant (ops : List ChatOp)
    (hopen : opensNonEmpty ops)
    (hclock : ((ops.map opTimes).flatten).Chain' (· ≤ ·)) :
    ∀ ctx, (runChat ops).context = some ctx →
      ctx.abstract ≠ "" ∧
      (ctx.history.map ChatMessage.timestamp).Chain' (· ≤ ·) := by
  have hpair : (((0 : Nat) :: (ops.map opTimes).flatten).Pairwise (· ≤ ·)) := by
    rw [List.pairwise_cons]
    exact ⟨fun t _ => Nat.zero_le t, List.chain'_iff_pairwise.mp hclock⟩
  obtain ⟨bf, hinv⟩ := runChat_loop ops { context := none, isOpen := false } 0
    (fun ctx hctx => by simp at hctx) hopen hpair
  intro ctx hctx
  obtain ⟨h1, h2, _⟩ := hinv ctx hctx
  exact ⟨h1, List.chain'_iff_pairwise.mpr h2⟩

/-- Witness for C5-as-amended at a concrete run. -/
theorem chat_session_invariant_witness :
    opensNonEmpty chatWitnessOps ∧
    ((chatWitnessOps.map opTimes).flatten).Chain' (· ≤ ·) ∧
    ((runChat chatWitnessOps).context.getD fallbackCtx).abstract ≠ "" ∧
    ((((runChat chatWitnessOps).context.getD fallbackCtx).history.map
      ChatMessage.timestamp).Chain' (· ≤ ·)) := by
  have hch : ((chatWitnessOps.map opTimes).flatten).Chain' (· ≤ ·) := by
    simp [chatWitnessOps, opTimes, List.chain'_cons]
  have h := chat_session_invariant chatWitnessOps (by decide) hch
  have hc := h ((runChat chatWitnessOps).context.getD fallbackCtx) rfl
  exact ⟨by decide, hch, hc.1, hc.2⟩

/-- C6: in every queue state reachable from the empty queue by enqueue,
enqueueAll, dismiss and clear, a non-empty pending sequence implies a
non-null current; and each of the four operations preserves the
invariant. -/
theorem queue_invariant_reachable (ops : List QueueOp) (q : NotificationQueue)
    (op : QueueOp) :
    QueueInv (runQueueOps ops) ∧ (QueueInv q → QueueInv (applyQueueOp q op)) := by
  refine ⟨?_, fun h => applyQueueOp_inv q op h⟩
  exact runQueueOps_inv ops NotificationQueue.empty (fun hne => absurd rfl hne)

/-- Witness for C6 at a concrete reachable state and a concrete
preservation step. -/
theorem queue_invariant_witness :
    QueueInv (runQueueOps [QueueOp.enqueue bubbleA, QueueOp.enqueueAll [bubbleB]]) ∧
    QueueInv NotificationQueue.empty ∧
    QueueInv (applyQueueOp NotificationQueue.empty QueueOp.dismiss) :=
  ⟨(queue_invariant_reachable [QueueOp.enqueue bubbleA, QueueOp.enqueueAll [bubbleB]]
      NotificationQueue.empty QueueOp.dismiss).1,
   by decide,
   (queue_invariant_reachable [] NotificationQueue.empty QueueOp.dismiss).2
     (by decide)⟩

/-- C7: `matchQuickCommand` returns a command exactly when the trimmed
input equals one of the two command strings character for character, and
null otherwise — a command with one extra trailing character is rejected,
a command surrounded only by whitespace is recognized. -/
theorem matchQuickCommand_spec :
    (∀ input c, matchQuickCommand input = some c ↔
      (jsTrim input = c ∧ c ∈ QUICK_COMMANDS)) ∧
    matchQuickCommand ("看公式!") = none ∧
    matchQuickCommand (" 看公式 ") = some ("看公式") ∧
    matchQuickCommand ("看公式") = some ("看公式") ∧
    matchQuickCommand ("看代码链接") = some ("看代码链接") ∧
    matchQuickCommand ("看代码链接!") = none := by
  refine ⟨?_, by decide, by decide, by decide, by decide, by decide⟩
  intro input c
  constructor
  · intro h
    have hmem := List.mem_of_find?_eq_some h
    have hpred := List.find?_some h
    rw [beq_iff_eq] at hpred
    exact ⟨hpred.symm, hmem⟩
  · rintro ⟨htrim, hmem⟩
    simp only [QUICK_COMMANDS, List.mem_cons, List.not_mem_nil, or_false] at hmem
    unfold matchQuickCommand
    rw [htrim]
    rcases hmem with rfl | rfl
    · decide
    · decide

/-- C8: from any starting state, `enqueueAll(messages)` produces exactly
the state of one `enqueue` call per message in input order — no reordering
by score or any other key. -/
theorem enqueueAll_eq_each (q : NotificationQueue) (ms : List BubbleMessage) :
    q.enqueueAll ms = enqueueEach q ms := by
  induction ms generalizing q with
  | nil => rfl
  | cons m rest ih => exact ih (q.enqueue m)

/-- C9 counterexample: with the same callback registered twice, the
unsubscribe handle is not idempotent — its second invocation removes the
other registration of the same function. -/
theorem unsubscribe_not_idempotent_cex :
    removeFirstCallback (removeFirstCallback [7, 7] 7) 7 ≠
      removeFirstCallback [7, 7] 7 := by
  decide

/-- C9 amended: unsubscribing is a total function (never throws); when the
callback it was issued for is registered at most once, invoking the handle
a second time leaves the callback list exactly as after the first call,
and an invocation never changes the registrations of any other callback. -/
theorem unsubscribe_idempotent_of_unique (cbs : List Nat) (c : Nat)
    (h : cbs.count c ≤ 1) :
    removeFirstCallback (removeFirstCallback cbs c) c = removeFirstCallback cbs c ∧
    ∀ d, d ≠ c → (removeFirstCallback cbs c).count d = cbs.count d := by
  refine ⟨?_, fun d hd => count_removeFirstCallback_ne cbs c d hd⟩
  exact removeFirstCallback_of_not_mem _ _
    (not_mem_removeFirstCallback_of_count_le_one cbs c h)

/-- Witness for C9-as-amended. -/
theorem unsubscribe_idempotent_witness :
    ([3, 7] : List Nat).count 7 ≤ 1 ∧
    removeFirstCallback (removeFirstCallback [3, 7] 7) 7 =
      removeFirstCallback [3, 7] 7 :=
  ⟨by decide, (unsubscribe_idempotent_of_unique [3, 7] 7 (by decide)).1⟩

/-- C10: `addMessageToHistory` returns a context whose history is the
input history with the message appended, every other field unchanged; as a
pure function of the embedding it cannot mutate its input. -/
theorem addMessageToHistory_frame (c : ChatContext) (m : ChatMessage) :
    (addMessageToHistory c m).history = c.history ++ [m] ∧
    (addMessageToHistory c m).paperId = c.paperId ∧
    (addMessageToHistory c m).paperTitle = c.paperTitle ∧
    (addMessageToHistory c m).abstract = c.abstract ∧
    (addMessageToHistory c m).pdfUrl = c.pdfUrl ∧
    (addMessageToHistory c m).isPdfProcessed = c.isPdfProcessed ∧
    (addMessageToHistory c m).processingStatus = c.processingStatus :=
  ⟨rfl, rfl, rfl, rfl, rfl, rfl, rfl⟩

end PaperPal


